import Mathlib

/-!
# A verification development for `excel_writer.py`

This file gives a shallow embedding of the single source file
`src/excel_writer.py` and proves properties of the embedded program.

The program has three parts:
* `create_workbook ws df **formatted_columns` — title-cases the dataframe's
  column names in place, applies `date` directives (in-place
  `dt.strftime("%m/%d/%Y")`) and records `currency` column positions, writes
  the header row and the data rows into the worksheet, declares a table
  overlay, sets the currency number format on the recorded columns, and
  auto-sizes the column widths;
* `format_totals ws` — bolds and fills (solid, color `b7aea5`) every cell of
  each data row whose first-column cell value contains the substring
  `"Total"`;
* a save-retry loop around `wb.save` that, on a `PermissionError`, prompts
  the operator and retries on input `"y"`, aborting on anything else.

Modelling conventions:
* cell values are `Value` (string, integer number, date, or `none` standing
  for an empty cell / NaN / NaT); machine floats in the demo data are not
  needed by any claim, so numbers are embedded as integers whose Python
  `str` rendering is their decimal notation;
* Python exceptions are modelled with `Except PyError`; an uncaught
  exception is an `Except.error` result;
* the pandas dataframe is a list of named columns; in-place mutation of the
  caller's dataframe is modelled by returning the updated dataframe;
* openpyxl's `ws[letter]` column access, `get_column_letter` and
  `column_dimensions[...].width` are modelled with 1-based column indices;
  the float literal `1.4` of the source is modelled exactly as the rational
  `7/5`.
-/

set_option autoImplicit false

namespace ExcelWriter

/-! ## Values and cells -/

/-- A cell / dataframe value: text, a number, a date (year, month, day) or
an empty value (Python `None`, pandas `NaN`/`NaT`). -/
inductive Value where
  | str (s : String)
  | num (n : Int)
  | date (y m d : Nat)
  | none
deriving DecidableEq, Repr

/-- Whether a value is a Python string (`str`). -/
def Value.isStr : Value → Bool
  | .str _ => true
  | _ => false

/-- Whether a value is a date. -/
def Value.isDate : Value → Bool
  | .date _ _ _ => true
  | _ => false

/-- Zero-padded two-digit decimal rendering, as `strftime` pads `%m`/`%d`. -/
def pad2 (n : Nat) : String :=
  if n < 10 then "0" ++ toString n else toString n

/-- Python `str()` of a value, as used by the width-measuring loop
(`len(str(cell.value))`).  `str(None) = "None"`; a date renders in the
`datetime` default notation. -/
def pyStr : Value → String
  | .str s => s
  | .num n => toString n
  | .date y m d => toString y ++ "-" ++ pad2 m ++ "-" ++ pad2 d ++ " 00:00:00"
  | .none => "None"

/-- A worksheet cell: a value plus the style state the program touches
(`cell.font` bold flag, `cell.fill` solid color, `cell.number_format`). -/
structure Cell where
  value : Value
  font_bold : Bool := false
  fill : Option String := Option.none
  number_format : String := "General"
deriving DecidableEq, Repr

/-- A fresh cell as `ws.append` creates it: default font, no fill, the
`General` number format. -/
def mkCell (v : Value) : Cell := { value := v }

/-- An openpyxl worksheet: its title, the appended rows of cells, the column
widths assigned through `column_dimensions[...].width` (per 1-based column,
recorded positionally) and the added tables as (displayName, ref) pairs. -/
structure Worksheet where
  title : String
  rows : List (List Cell)
  widths : List ℚ := []
  tables : List (String × String) := []
deriving DecidableEq, Repr

/-- `ws.max_column`: the widest appended row. -/
def Worksheet.max_column (ws : Worksheet) : Nat :=
  ws.rows.foldl (fun m r => max m r.length) 0

/-! ## Python string helpers -/

/-- Prefix test on character lists (helper for Python's substring `in`). -/
def charsPre : List Char → List Char → Bool
  | [], _ => true
  | _ :: _, [] => false
  | a :: as, b :: bs => (a == b) && charsPre as bs

/-- Substring occurrence test on character lists. -/
def charsSub (nd : List Char) : List Char → Bool
  | [] => charsPre nd []
  | c :: t => charsPre nd (c :: t) || charsSub nd t

/-- Python's `"Total" in s`: case-sensitive substring containment, anywhere
in the text (not prefix-anchored). -/
def containsTotal (s : String) : Bool :=
  charsSub "Total".data s.data

/-- Character-level worker for Python `str.title()`: the first character of
each run of letters is uppercased, every further letter of the run is
lowercased, non-letters pass through.  The boolean records whether the
previous character was a letter. -/
def pyTitleAux : Bool → List Char → List Char
  | _, [] => []
  | prev, c :: cs =>
    if c.isAlpha then
      (if prev then c.toLower else c.toUpper) :: pyTitleAux true cs
    else
      c :: pyTitleAux false cs

/-- Python / pandas `str.title()` (ASCII letters, which covers the program's
column names). -/
def pyTitle (s : String) : String :=
  String.mk (pyTitleAux false s.data)

/-- Modelled from the claim wording, for comparison with `pyTitle`:
"column names with each word's first letter capitalized" — the first letter
of each run of letters is uppercased and every other character is left
unchanged. -/
def capitalizeWordsAux : Bool → List Char → List Char
  | _, [] => []
  | prev, c :: cs =>
    if c.isAlpha then
      (if prev then c else c.toUpper) :: capitalizeWordsAux true cs
    else
      c :: capitalizeWordsAux false cs

/-- Modelled from the claim wording, for comparison with `pyTitle`. -/
def capitalizeWords (s : String) : String :=
  String.mk (capitalizeWordsAux false s.data)

/-! ## The dataframe -/

/-- A pandas dataframe: an ordered list of named columns, each with its
ordered list of values. -/
structure DataFrame where
  cols : List (String × List Value)
deriving DecidableEq, Repr

/-- `df.columns` as a list of names. -/
def DataFrame.names (df : DataFrame) : List String :=
  df.cols.map Prod.fst

/-- `len(df)`: the number of data rows (pandas frames are rectangular, so
the first column's length is the row count). -/
def DataFrame.nrows (df : DataFrame) : Nat :=
  match df.cols with
  | [] => 0
  | c :: _ => c.2.length

/-- A dataframe is rectangular: every column has `nrows` values. -/
def DataFrame.Rect (df : DataFrame) : Prop :=
  ∀ c ∈ df.cols, c.2.length = df.nrows

instance (df : DataFrame) : Decidable df.Rect := by
  unfold DataFrame.Rect; infer_instance

/-- Column lookup by name (first match), as `df[col]` selects a column. -/
def lookupCol (k : String) : List (String × List Value) → Option (List Value)
  | [] => Option.none
  | c :: cs => if c.1 = k then Option.some c.2 else lookupCol k cs

/-- `df[col]`, `Option.none` modelling the `KeyError` case. -/
def DataFrame.getCol (df : DataFrame) (k : String) : Option (List Value) :=
  lookupCol k df.cols

/-- Index of the first occurrence of a name. -/
def idxOf? (k : String) : List String → Option Nat
  | [] => Option.none
  | n :: ns => if n = k then Option.some 0 else (idxOf? k ns).map (· + 1)

/-- `df.columns.get_loc(col)`: 0-based position of a column name,
`Option.none` modelling the `KeyError` case. -/
def DataFrame.get_loc (df : DataFrame) (k : String) : Option Nat :=
  idxOf? k df.names

/-- `df[col] = vs`: replace the values of the column named `k`. -/
def DataFrame.setCol (df : DataFrame) (k : String) (vs : List Value) : DataFrame :=
  ⟨df.cols.map (fun c => (c.1, if c.1 = k then vs else c.2))⟩

/-- `df.columns = df.columns.str.title()`: the header-renaming step of
`create_workbook` (line 36 of the source). -/
def DataFrame.rename (df : DataFrame) : DataFrame :=
  ⟨df.cols.map (fun c => (pyTitle c.1, c.2))⟩

/-! ## `create_workbook` -/

/-- A Python exception class, as far as the program distinguishes them. -/
inductive PyError where
  | keyError
  | attributeError
  | typeError
  | indexError
deriving DecidableEq, Repr

/-- A value a datetime64 column may hold: a date or `NaT` (embedded as
`Value.none`).  The `.dt` accessor of pandas requires the whole column to be
datetime-valued; on any other column it raises `AttributeError`. -/
def isDatelike : Value → Bool
  | .date _ _ _ => true
  | .none => true
  | _ => false

/-- `strftime("%m/%d/%Y")` on one value: zero-padded month and day, the year
in decimal; `NaT` maps to `NaN` (both embedded as `Value.none`). -/
def strfValue : Value → Value
  | .date y m d => .str (pad2 m ++ "/" ++ pad2 d ++ "/" ++ toString y)
  | v => v

/-- A format directive value: the spec's enumeration {date, currency}. -/
inductive Fmt where
  | date
  | currency
deriving DecidableEq, Repr

/-- The directive loop of `create_workbook` (lines 39-44 of the source),
processed in keyword order: a `date` directive rewrites its column in place
through `df[col].dt.strftime("%m/%d/%Y")` (`KeyError` if the column does not
exist, `AttributeError` from `.dt` if it is not datetime-valued); a
`currency` directive records `df.columns.get_loc(col) + 1`, the 1-based
column position that `get_column_letter` encodes (`KeyError` if the column
does not exist). -/
def applyDirectivesAux : DataFrame → List Nat → List (String × Fmt) →
    Except PyError (DataFrame × List Nat)
  | df, cur, [] => Except.ok (df, cur)
  | df, cur, kv :: rest =>
    match kv.2 with
    | Fmt.date =>
      match df.getCol kv.1 with
      | Option.none => Except.error PyError.keyError
      | Option.some vs =>
        if vs.all isDatelike then
          applyDirectivesAux (df.setCol kv.1 (vs.map strfValue)) cur rest
        else
          Except.error PyError.attributeError
    | Fmt.currency =>
      match df.get_loc kv.1 with
      | Option.none => Except.error PyError.keyError
      | Option.some j => applyDirectivesAux df (cur ++ [j + 1]) rest

/-- The directive loop, started with an empty `currency_columns` list. -/
def applyDirectives (df : DataFrame) (fcs : List (String × Fmt)) :
    Except PyError (DataFrame × List Nat) :=
  applyDirectivesAux df [] fcs

/-- The header row `dataframe_to_rows` yields: the column names as text. -/
def DataFrame.headerRow (df : DataFrame) : List Cell :=
  df.cols.map (fun c => mkCell (Value.str c.1))

/-- The `i`-th data row `dataframe_to_rows` yields: the `i`-th value of each
column, in column order. -/
def DataFrame.dataRow (df : DataFrame) (i : Nat) : List Cell :=
  df.cols.map (fun c => mkCell (c.2.getD i Value.none))

/-- The `ws.append` loop (lines 47-48): one header row, then one row per
dataset record, appended after any existing rows. -/
def writeRows (ws : Worksheet) (df : DataFrame) : Worksheet :=
  { ws with rows := ws.rows ++ df.headerRow :: (List.range df.nrows).map df.dataRow }

/-- `get_column_letter`, with the column number itself as recursion fuel
(the quotient `(n - 1) / 26` never exceeds it). -/
def colLetterAux : Nat → Nat → List Char
  | 0, _ => []
  | _, 0 => []
  | fuel + 1, n => Char.ofNat (64 + (1 + (n - 1) % 26)) :: colLetterAux fuel ((n - 1) / 26)

/-- openpyxl's `get_column_letter`: 1 ↦ `"A"`, 26 ↦ `"Z"`, 27 ↦ `"AA"`. -/
def get_column_letter (n : Nat) : String :=
  String.mk (colLetterAux n n).reverse

/-- Lines 50-58: build the `Table` with the worksheet's title as display
name and `ref = "A1:" + letter(max_column) + str(len(df)+1)`, and add it. -/
def addTable (ws : Worksheet) (nrows : Nat) : Worksheet :=
  { ws with tables := ws.tables ++
      [(ws.title, "A1:" ++ get_column_letter ws.max_column ++ toString (nrows + 1))] }

/-- The number-format string of line 63 of the source. -/
def currencyFormat : String := "\"$\"#,##0.00_-"

/-- `cell.number_format = '"$"#,##0.00_-'`. -/
def setCurrency (c : Cell) : Cell :=
  { c with number_format := currencyFormat }

/-- Apply `f` to the `n`-th entry of a list (0-based), if present. -/
def modifyAt {α : Type} (f : α → α) : Nat → List α → List α
  | _, [] => []
  | 0, a :: as => f a :: as
  | n + 1, a :: as => a :: modifyAt f n as

/-- `for cell in ws[i]: cell.number_format = ...` for the 1-based column
`i`: every existing cell of that column — the header cell included — gets
the currency format. -/
def formatColumn (rows : List (List Cell)) (i : Nat) : List (List Cell) :=
  rows.map (modifyAt setCurrency (i - 1))

/-- Lines 61-63: the currency-format loop over the recorded columns. -/
def applyCurrency (ws : Worksheet) (cur : List Nat) : Worksheet :=
  { ws with rows := cur.foldl formatColumn ws.rows }

/-- One step of the width-measuring loop body (lines 70-74):

    try:
        if len(str(cell.value)) > max_length:
            max_length = len(cell.value)
    except: pass

The guard renders the value with `str`, but the assignment calls `len` on
the raw value: for a non-string value `len(cell.value)` raises `TypeError`,
the bare `except` swallows it, and `max_length` is left unchanged. -/
def cellMaxStep (m : Nat) (c : Cell) : Nat :=
  if (pyStr c.value).length > m then
    match c.value with
    | Value.str s => s.length
    | _ => m
  else m

/-- The cells of the 1-based... (0-based index `j`) column, top to bottom,
as `ws[column_letter]` iterates them. -/
def columnCells (rows : List (List Cell)) (j : Nat) : List Cell :=
  rows.filterMap (fun r => r.get? j)

/-- `max_length` as computed by the source for the 0-based column `j`. -/
def codeMaxLength (rows : List (List Cell)) (j : Nat) : Nat :=
  (columnCells rows j).foldl cellMaxStep 0

/-- Lines 66-76: `adjusted_width = (max_length + 2) * 1.4` assigned to every
column of the written range. -/
def setWidths (ws : Worksheet) : Worksheet :=
  { ws with
    widths := (List.range ws.max_column).map
      (fun j => ((codeMaxLength ws.rows j + 2 : Nat) : ℚ) * (7 / 5)) }

/-- Modelled from the claim wording, for comparison with the source's width
computation: the maximum rendered character length over all cells of the
column, where only cells whose value cannot be measured (empty cells) are
skipped. -/
def claimMaxLength (rows : List (List Cell)) (j : Nat) : Nat :=
  ((columnCells rows j).filter (fun c => c.value != Value.none)).foldl
    (fun m c => max m (pyStr c.value).length) 0

/-- Modelled from the claim wording, for comparison with the source's width
computation. -/
def claimWidth (rows : List (List Cell)) (j : Nat) : ℚ :=
  ((claimMaxLength rows j + 2 : Nat) : ℚ) * (7 / 5)

/-- `create_workbook(ws, df, **formatted_columns)` (lines 10-76): rename the
columns to title case, run the directive loop, append header and data rows,
add the table overlay, set the currency formats, set the column widths.
The updated dataframe is returned alongside the worksheet because the
source mutates the caller's dataframe in place. -/
def create_workbook (ws : Worksheet) (df : DataFrame) (fcs : List (String × Fmt)) :
    Except PyError (Worksheet × DataFrame) :=
  match applyDirectives df.rename fcs with
  | Except.error e => Except.error e
  | Except.ok (df2, cur) =>
    Except.ok (setWidths (applyCurrency (addTable (writeRows ws df2) df2.nrows) cur), df2)

/-! ## `format_totals` -/

/-- `cell.font = Font(bold=True); cell.fill = PatternFill(fill_type="solid",
start_color="b7aea5")`. -/
def highlightCell (c : Cell) : Cell :=
  { c with font_bold := true, fill := Option.some "b7aea5" }

/-- The effect of the `format_totals` loop body on one data row: if the
first cell's text contains `"Total"`, every cell of the row gets the bold
font and the solid `b7aea5` fill; otherwise the row is untouched.  (Only
meaningful for rows whose first cell holds a string; `format_totals` raises
before producing a result otherwise.) -/
def highlightRowIfTotal (row : List Cell) : List Cell :=
  match row with
  | [] => row
  | c :: _ =>
    match c.value with
    | Value.str s => if containsTotal s then row.map highlightCell else row
    | _ => row

/-- The row loop of `format_totals` (lines 101-111) over the data rows:
`row[0].value` is read and `"Total" in cell_value` is evaluated — a
`TypeError` for any non-string value, since no coercion is performed. -/
def highlightStep : List (List Cell) → Except PyError (List (List Cell))
  | [] => Except.ok []
  | row :: rest =>
    match row.head? with
    | Option.none => Except.error PyError.indexError
    | Option.some c =>
      match c.value with
      | Value.str s =>
        match highlightStep rest with
        | Except.error e => Except.error e
        | Except.ok rest2 =>
          Except.ok ((if containsTotal s then row.map highlightCell else row) :: rest2)
      | _ => Except.error PyError.typeError

/-- `format_totals(ws)`: iterate the rows from row 2 (the data rows) and
highlight the "Totals" rows. -/
def format_totals (ws : Worksheet) : Except PyError Worksheet :=
  match ws.rows with
  | [] => Except.ok ws
  | header :: data =>
    match highlightStep data with
    | Except.error e => Except.error e
    | Except.ok data2 => Except.ok { ws with rows := header :: data2 }

/-! ## The save-retry loop -/

/-- The `while saving:` loop (lines 147-157).  `att a` tells whether the
`a`-th call of `wb.save` succeeds (`false` models a `PermissionError` from
the file being locked), `inp i` is the `i`-th line the operator types at the
prompt.  The result is the printed notice together with whether the file was
saved; `Option.none` means the fuel ran out while the loop was still
running (lock after lock, `"y"` after `"y"`). -/
def saveLoop (att : Nat → Bool) (inp : Nat → String) : Nat → Nat → Nat → Option (Bool × String)
  | 0, _, _ => Option.none
  | fuel + 1, a, i =>
    if att a then
      Option.some (true, "File saved")
    else if inp i = "y" then
      saveLoop att inp fuel (a + 1) (i + 1)
    else
      Option.some (false, "File not saved")

/-! ## Observers and concrete instances -/

/-- The values of a row of cells, styles forgotten. -/
def rowValues (r : List Cell) : List Value := r.map Cell.value

/-- The values of the 0-based column `j`, one entry per row (`Option.none`
where the row has no `j`-th cell). -/
def colValues (rows : List (List Cell)) (j : Nat) : List (Option Value) :=
  rows.map (fun r => (r.get? j).map Cell.value)

/-- The number formats of the 0-based column `j`, one entry per row. -/
def colFormats (rows : List (List Cell)) (j : Nat) : List (Option String) :=
  rows.map (fun r => (r.get? j).map Cell.number_format)

/-- Whether a result is a normal (non-raising) one. -/
def exceptOk {ε α : Type} : Except ε α → Bool
  | Except.ok _ => true
  | Except.error _ => false

instance {ε α : Type} [DecidableEq ε] [DecidableEq α] : DecidableEq (Except ε α) := by
  intro a b
  cases a with
  | error e =>
    cases b with
    | error e2 =>
      refine decidable_of_iff (e = e2) ⟨fun h => by rw [h], fun h => by cases h; rfl⟩
    | ok y => exact Decidable.isFalse (fun h => by cases h)
  | ok x =>
    cases b with
    | error e2 => exact Decidable.isFalse (fun h => by cases h)
    | ok y =>
      refine decidable_of_iff (x = y) ⟨fun h => by rw [h], fun h => by cases h; rfl⟩

/-- A fresh, empty worksheet as the demo creates it. -/
def wsEmpty : Worksheet := ⟨"Sample_Sheet", [], [], []⟩

/-- Witness for C1 on a concrete worksheet: the `"Total"` row is bolded and
filled, the other rows are untouched. -/
def wsHighlight : Worksheet :=
  ⟨"Sample_Sheet",
   [[mkCell (Value.str "Description")], [mkCell (Value.str "Total")],
    [mkCell (Value.str "Rent")]], [], []⟩

/-- The worksheet `format_totals` produces from `wsHighlight`. -/
def wsHighlighted : Worksheet :=
  ⟨"Sample_Sheet",
   [[mkCell (Value.str "Description")],
    [⟨Value.str "Total", true, Option.some "b7aea5", "General"⟩],
    [mkCell (Value.str "Rent")]], [], []⟩

/-- Witness for C9: a worksheet whose single data row starts with the
number `3649`. -/
def wsNumericFirst : Worksheet :=
  ⟨"Sample_Sheet", [[mkCell (Value.str "Amount")], [mkCell (Value.num 3649)]], [], []⟩

/-- A run where the file stays locked and the operator types `"n"`. -/
def attLocked : Nat → Bool := fun _ => false

/-- The operator's reply stream: always `"n"`. -/
def inpAbort : Nat → String := fun _ => "n"

/-- A dataframe with an all-caps column name (C2 counterexample). -/
def dfUSD : DataFrame := ⟨[("USD", [])]⟩

/-- A one-column dataframe with a snake_case name (C2 witness). -/
def dfLowerName : DataFrame := ⟨[("payment_date", [Value.num 1])]⟩

/-- A one-column date dataframe (C3 witness). -/
def dfDates : DataFrame := ⟨[("Payment_Date", [Value.date 2023 10 13, Value.date 2023 10 14])]⟩

/-- A one-column numeric dataframe (C4 witness). -/
def dfAmounts : DataFrame := ⟨[("Amount", [Value.num 5000, Value.num (-1200)])]⟩

/-- A column whose longest rendered cell is numeric (C5 failing input). -/
def dfWidthBug : DataFrame := ⟨[("No", [Value.num 123456])]⟩

/-- A dataframe and directives for the C6 witness: the second directive
names a missing column. -/
def dfAmountOnly : DataFrame := ⟨[("Amount", [Value.num 1])]⟩

/-- Directives with one existing and one missing key (C6 witness). -/
def fcsMissing : List (String × Fmt) := [("Amount", Fmt.currency), ("Missing", Fmt.currency)]

/-- A dataframe whose only column holds text (C6 counterexample). -/
def dfTextCol : DataFrame := ⟨[("A", [Value.str "x"])]⟩

/-- Directives where a date directive on an existing non-datetime column
precedes a missing-column directive (C6 counterexample). -/
def fcsMixed : List (String × Fmt) := [("A", Fmt.date), ("B", Fmt.currency)]

/-- A dataframe whose column name changes under title-casing (C10). -/
def dfAllLower : DataFrame := ⟨[("amount", [Value.num 7])]⟩

/-! ## Generic helper lemmas -/

theorem map_const_replicate {α β : Type} (b : β) :
    ∀ l : List α, l.map (fun _ => b) = List.replicate l.length b
  | [] => rfl
  | a :: l => by simp [List.replicate, map_const_replicate b l]

theorem range_map_getD {α : Type} (d : α) :
    ∀ l : List α, (List.range l.length).map (fun i => l.getD i d) = l
  | [] => rfl
  | a :: l => by
    rw [List.length_cons, List.range_succ_eq_map, List.map_cons, List.map_map]
    have h2 : (List.range l.length).map ((fun i => (a :: l).getD i d) ∘ Nat.succ) =
        (List.range l.length).map (fun i => l.getD i d) := by
      apply List.map_congr_left
      intro i _
      rfl
    rw [h2, range_map_getD d l]
    rfl

theorem modifyAt_get?_self {α : Type} (f : α → α) :
    ∀ (n : Nat) (l : List α), (modifyAt f n l).get? n = (l.get? n).map f
  | _, [] => by simp [modifyAt]
  | 0, a :: as => by simp [modifyAt]
  | n + 1, a :: as => by
    simp only [modifyAt, List.get?_cons_succ]
    exact modifyAt_get?_self f n as

theorem modifyAt_get?_ne {α : Type} (f : α → α) :
    ∀ (m n : Nat) (l : List α), m ≠ n → (modifyAt f n l).get? m = l.get? m
  | _, _, [], _ => by simp [modifyAt]
  | 0, 0, a :: as, h => absurd rfl h
  | 0, n + 1, a :: as, _ => by simp [modifyAt]
  | m + 1, 0, a :: as, _ => by simp [modifyAt]
  | m + 1, n + 1, a :: as, h => by
    simp only [modifyAt, List.get?_cons_succ]
    exact modifyAt_get?_ne f m n as (fun hc => h (by rw [hc]))

theorem modifyAt_map {α β : Type} (g : α → β) (f : α → α) (hgf : ∀ a, g (f a) = g a) :
    ∀ (n : Nat) (l : List α), (modifyAt f n l).map g = l.map g
  | n, [] => by cases n <;> rfl
  | 0, a :: as => by simp [modifyAt, hgf a]
  | n + 1, a :: as => by simp [modifyAt, modifyAt_map g f hgf n as]

/-! ## Lemmas about the dataframe operations -/

theorem lookupCol_eq_none_iff (k : String) :
    ∀ cols : List (String × List Value),
      lookupCol k cols = Option.none ↔ k ∉ cols.map Prod.fst
  | [] => by simp [lookupCol]
  | c :: cs => by
    by_cases h : c.1 = k
    · simp [lookupCol, h]
    · simp [lookupCol, h, lookupCol_eq_none_iff k cs, Ne.symm h]

theorem getCol_eq_none_iff (df : DataFrame) (k : String) :
    df.getCol k = Option.none ↔ k ∉ df.names :=
  lookupCol_eq_none_iff k df.cols

theorem idxOf?_eq_none_iff (k : String) :
    ∀ l : List String, idxOf? k l = Option.none ↔ k ∉ l
  | [] => by simp [idxOf?]
  | n :: ns => by
    by_cases h : n = k
    · simp [idxOf?, h]
    · simp [idxOf?, h, idxOf?_eq_none_iff k ns, Ne.symm h]

theorem get_loc_eq_none_iff (df : DataFrame) (k : String) :
    df.get_loc k = Option.none ↔ k ∉ df.names :=
  idxOf?_eq_none_iff k df.names

theorem idxOf?_of_get? (k : String) :
    ∀ (l : List String) (j : Nat), l.Nodup → l.get? j = Option.some k →
      idxOf? k l = Option.some j
  | [], j, _, hj => by simp at hj
  | n :: ns, 0, _, hj => by
    simp only [List.get?_cons_zero, Option.some.injEq] at hj
    simp [idxOf?, hj]
  | n :: ns, j + 1, hnd, hj => by
    simp only [List.get?_cons_succ] at hj
    have hk : k ∈ ns := List.get?_mem hj
    have hne : n ≠ k := by
      intro h
      exact (List.nodup_cons.mp hnd).1 (h ▸ hk)
    simp [idxOf?, hne, idxOf?_of_get? k ns j (List.nodup_cons.mp hnd).2 hj]

theorem lookupCol_of_get? (k : String) (vs : List Value) :
    ∀ (cols : List (String × List Value)) (j : Nat), (cols.map Prod.fst).Nodup →
      cols.get? j = Option.some (k, vs) → lookupCol k cols = Option.some vs
  | [], j, _, hj => by simp at hj
  | c :: cs, 0, _, hj => by
    simp only [List.get?_cons_zero, Option.some.injEq] at hj
    subst hj
    simp [lookupCol]
  | c :: cs, j + 1, hnd, hj => by
    simp only [List.get?_cons_succ] at hj
    have hk : k ∈ cs.map Prod.fst := by
      have := List.get?_mem hj
      exact List.mem_map.mpr ⟨(k, vs), this, rfl⟩
    have hne : c.1 ≠ k := by
      intro h
      rw [List.map_cons, List.nodup_cons] at hnd
      exact hnd.1 (h ▸ hk)
    simp [lookupCol, hne, lookupCol_of_get? k vs cs j (by rw [List.map_cons, List.nodup_cons] at hnd; exact hnd.2) hj]

theorem getCol_of_get? (df : DataFrame) (k : String) (vs : List Value) (j : Nat)
    (hnd : df.names.Nodup) (hj : df.cols.get? j = Option.some (k, vs)) :
    df.getCol k = Option.some vs :=
  lookupCol_of_get? k vs df.cols j hnd hj

theorem get_loc_of_get? (df : DataFrame) (k : String) (vs : List Value) (j : Nat)
    (hnd : df.names.Nodup) (hj : df.cols.get? j = Option.some (k, vs)) :
    df.get_loc k = Option.some j := by
  have : df.names.get? j = Option.some k := by
    unfold DataFrame.names
    rw [List.get?_map, hj]
    rfl
  exact idxOf?_of_get? k df.names j hnd this

theorem setCol_names (df : DataFrame) (k : String) (vs : List Value) :
    (df.setCol k vs).names = df.names := by
  unfold DataFrame.setCol DataFrame.names
  rw [List.map_map]
  rfl

theorem getCol_setCol_ne (df : DataFrame) (k k' : String) (vs : List Value)
    (hne : k' ≠ k) : (df.setCol k vs).getCol k' = df.getCol k' := by
  unfold DataFrame.setCol DataFrame.getCol
  induction df.cols with
  | nil => rfl
  | cons c cs ih =>
    by_cases h : c.1 = k'
    · simp [lookupCol, h, if_neg hne]
    · simp [lookupCol, h, ih]

theorem get_loc_setCol (df : DataFrame) (k k' : String) (vs : List Value) :
    (df.setCol k vs).get_loc k' = df.get_loc k' := by
  unfold DataFrame.get_loc
  rw [setCol_names]

theorem setCol_get?_ne (df : DataFrame) (k k' : String) (vs vs' : List Value) (j : Nat)
    (hj : df.cols.get? j = Option.some (k', vs')) (hne : k' ≠ k) :
    (df.setCol k vs).cols.get? j = Option.some (k', vs') := by
  unfold DataFrame.setCol
  rw [List.get?_map, hj]
  simp [hne]

theorem setCol_get?_self (df : DataFrame) (k : String) (vs vs' : List Value) (j : Nat)
    (hj : df.cols.get? j = Option.some (k, vs')) :
    (df.setCol k vs).cols.get? j = Option.some (k, vs) := by
  unfold DataFrame.setCol
  rw [List.get?_map, hj]
  simp

theorem rename_names (df : DataFrame) : df.rename.names = df.names.map pyTitle := by
  unfold DataFrame.rename DataFrame.names
  rw [List.map_map, List.map_map]
  rfl

theorem rename_nrows (df : DataFrame) : df.rename.nrows = df.nrows := by
  unfold DataFrame.rename DataFrame.nrows
  cases df.cols <;> rfl

theorem rename_rect (df : DataFrame) (h : df.Rect) : df.rename.Rect := by
  intro c hc
  unfold DataFrame.rename at hc
  simp only [List.mem_map] at hc
  obtain ⟨c0, hc0, hce⟩ := hc
  rw [rename_nrows, ← hce]
  exact h c0 hc0

/-! ## Lemmas about the directive loop -/

theorem applyDirectivesAux_names :
    ∀ (fcs : List (String × Fmt)) (df : DataFrame) (cur : List Nat)
      (df2 : DataFrame) (cur2 : List Nat),
      applyDirectivesAux df cur fcs = Except.ok (df2, cur2) → df2.names = df.names
  | [], df, cur, df2, cur2, h => by
    simp only [applyDirectivesAux] at h
    cases h
    rfl
  | (k0, f0) :: rest, df, cur, df2, cur2, h => by
    cases f0 with
    | date =>
      simp only [applyDirectivesAux] at h
      cases hg : df.getCol k0 with
      | none => rw [hg] at h; cases h
      | some vs =>
        rw [hg] at h
        dsimp only at h
        by_cases hall : vs.all isDatelike
        · rw [if_pos hall] at h
          rw [applyDirectivesAux_names rest _ _ _ _ h, setCol_names]
        · rw [if_neg hall] at h
          cases h
    | currency =>
      simp only [applyDirectivesAux] at h
      cases hl : df.get_loc k0 with
      | none => rw [hl] at h; cases h
      | some j =>
        rw [hl] at h
        exact applyDirectivesAux_names rest _ _ _ _ h

/-- On success the loop preserves every column's position, name and value
count (unique column names assumed, as pandas guarantees). -/
theorem applyDirectivesAux_shape :
    ∀ (fcs : List (String × Fmt)) (df : DataFrame) (cur : List Nat)
      (df2 : DataFrame) (cur2 : List Nat),
      applyDirectivesAux df cur fcs = Except.ok (df2, cur2) → df.names.Nodup →
      ∀ (j : Nat) (k : String) (vs : List Value), df.cols.get? j = Option.some (k, vs) →
        ∃ vs2, df2.cols.get? j = Option.some (k, vs2) ∧ vs2.length = vs.length
  | [], df, cur, df2, cur2, h, _, j, k, vs, hj => by
    simp only [applyDirectivesAux] at h
    cases h
    exact ⟨vs, hj, rfl⟩
  | (k0, f0) :: rest, df, cur, df2, cur2, h, hnd, j, k, vs, hj => by
    cases f0 with
    | date =>
      simp only [applyDirectivesAux] at h
      cases hg : df.getCol k0 with
      | none => rw [hg] at h; cases h
      | some vs0 =>
        rw [hg] at h
        dsimp only at h
        by_cases hall : vs0.all isDatelike
        · rw [if_pos hall] at h
          have hnd2 : (df.setCol k0 (vs0.map strfValue)).names.Nodup := by
            rw [setCol_names]; exact hnd
          by_cases hk : k = k0
          · subst hk
            have hvs : vs0 = vs := by
              have hh := getCol_of_get? df k vs j hnd hj
              rw [hh] at hg
              cases hg
              rfl
            rw [hvs] at h
            obtain ⟨vs2, h1, h2⟩ := applyDirectivesAux_shape rest _ _ _ _ h
              (by rw [setCol_names]; exact hnd) j k
              (vs.map strfValue) (setCol_get?_self df k (vs.map strfValue) vs j hj)
            exact ⟨vs2, h1, by rw [h2, List.length_map]⟩
          · exact applyDirectivesAux_shape rest _ _ _ _ h hnd2 j k vs
              (setCol_get?_ne df k0 k (vs0.map strfValue) vs j hj hk)
        · rw [if_neg hall] at h
          cases h
    | currency =>
      simp only [applyDirectivesAux] at h
      cases hl : df.get_loc k0 with
      | none => rw [hl] at h; cases h
      | some j0 =>
        rw [hl] at h
        exact applyDirectivesAux_shape rest _ _ _ _ h hnd j k vs hj

/-- A column that no `date` directive names keeps its values. -/
theorem applyDirectivesAux_frozen :
    ∀ (fcs : List (String × Fmt)) (df : DataFrame) (cur : List Nat)
      (df2 : DataFrame) (cur2 : List Nat) (k : String) (vs : List Value) (j : Nat),
      applyDirectivesAux df cur fcs = Except.ok (df2, cur2) →
      (∀ kv ∈ fcs, kv.2 = Fmt.date → kv.1 ≠ k) →
      df.cols.get? j = Option.some (k, vs) →
      df2.cols.get? j = Option.some (k, vs)
  | [], df, cur, df2, cur2, k, vs, j, h, _, hj => by
    simp only [applyDirectivesAux] at h
    cases h
    exact hj
  | (k0, f0) :: rest, df, cur, df2, cur2, k, vs, j, h, hnodate, hj => by
    cases f0 with
    | date =>
      simp only [applyDirectivesAux] at h
      cases hg : df.getCol k0 with
      | none => rw [hg] at h; cases h
      | some vs0 =>
        rw [hg] at h
        dsimp only at h
        by_cases hall : vs0.all isDatelike
        · rw [if_pos hall] at h
          have hne : k ≠ k0 :=
            fun he => (hnodate (k0, Fmt.date) (List.mem_cons_self _ _) rfl) (he ▸ rfl)
          exact applyDirectivesAux_frozen rest _ _ _ _ k vs j h
            (fun kv hkv => hnodate kv (List.mem_cons_of_mem _ hkv))
            (setCol_get?_ne df k0 k (vs0.map strfValue) vs j hj hne)
        · rw [if_neg hall] at h
          cases h
    | currency =>
      simp only [applyDirectivesAux] at h
      cases hl : df.get_loc k0 with
      | none => rw [hl] at h; cases h
      | some j0 =>
        rw [hl] at h
        exact applyDirectivesAux_frozen rest _ _ _ _ k vs j h
          (fun kv hkv => hnodate kv (List.mem_cons_of_mem _ hkv)) hj

/-- The column a `date` directive names gets exactly its `strftime`-mapped
values (directive keys and column names unique). -/
theorem applyDirectivesAux_date :
    ∀ (fcs : List (String × Fmt)) (df : DataFrame) (cur : List Nat)
      (df2 : DataFrame) (cur2 : List Nat) (k : String) (vs : List Value) (j : Nat),
      applyDirectivesAux df cur fcs = Except.ok (df2, cur2) →
      (fcs.map Prod.fst).Nodup → df.names.Nodup →
      (k, Fmt.date) ∈ fcs →
      df.cols.get? j = Option.some (k, vs) →
      df2.cols.get? j = Option.some (k, vs.map strfValue)
  | [], df, cur, df2, cur2, k, vs, j, h, _, _, hmem, hj => by simp at hmem
  | (k0, f0) :: rest, df, cur, df2, cur2, k, vs, j, h, hkeys, hnd, hmem, hj => by
    rw [List.map_cons, List.nodup_cons] at hkeys
    rcases List.mem_cons.mp hmem with hhead | htail
    · cases hhead
      simp only [applyDirectivesAux] at h
      cases hg : df.getCol k0 with
      | none => rw [hg] at h; cases h
      | some vs0 =>
        rw [hg] at h
        dsimp only at h
        have hvs : vs0 = vs := by
          have hh := getCol_of_get? df k0 vs j hnd hj
          rw [hh] at hg
          cases hg
          rfl
        by_cases hall : vs0.all isDatelike
        · rw [if_pos hall, hvs] at h
          refine applyDirectivesAux_frozen rest _ _ _ _ k0 (vs.map strfValue) j h ?_
            (setCol_get?_self df k0 (vs.map strfValue) vs j hj)
          intro kv hkv _
          intro he
          exact hkeys.1 (he ▸ List.mem_map.mpr ⟨kv, hkv, rfl⟩)
        · rw [if_neg hall] at h
          cases h
    · have hne : k0 ≠ k := by
        intro he
        exact hkeys.1 (he ▸ List.mem_map.mpr ⟨(k, Fmt.date), htail, rfl⟩)
      cases f0 with
      | date =>
        simp only [applyDirectivesAux] at h
        cases hg : df.getCol k0 with
        | none => rw [hg] at h; cases h
        | some vs0 =>
          rw [hg] at h
          dsimp only at h
          by_cases hall : vs0.all isDatelike
          · rw [if_pos hall] at h
            exact applyDirectivesAux_date rest _ _ _ _ k vs j h hkeys.2
              (by rw [setCol_names]; exact hnd) htail
              (setCol_get?_ne df k0 k (vs0.map strfValue) vs j hj (Ne.symm hne))
          · rw [if_neg hall] at h
            cases h
      | currency =>
        simp only [applyDirectivesAux] at h
        cases hl : df.get_loc k0 with
        | none => rw [hl] at h; cases h
        | some j0 =>
          rw [hl] at h
          exact applyDirectivesAux_date rest _ _ _ _ k vs j h hkeys.2 hnd htail hj

/-- The accumulated currency-column list only grows. -/
theorem applyDirectivesAux_cur_mono :
    ∀ (fcs : List (String × Fmt)) (df : DataFrame) (cur : List Nat)
      (df2 : DataFrame) (cur2 : List Nat),
      applyDirectivesAux df cur fcs = Except.ok (df2, cur2) →
      ∀ x ∈ cur, x ∈ cur2
  | [], df, cur, df2, cur2, h => by
    simp only [applyDirectivesAux] at h
    cases h
    exact fun x hx => hx
  | (k0, f0) :: rest, df, cur, df2, cur2, h => by
    cases f0 with
    | date =>
      simp only [applyDirectivesAux] at h
      cases hg : df.getCol k0 with
      | none => rw [hg] at h; cases h
      | some vs0 =>
        rw [hg] at h
        dsimp only at h
        by_cases hall : vs0.all isDatelike
        · rw [if_pos hall] at h
          exact applyDirectivesAux_cur_mono rest _ _ _ _ h
        · rw [if_neg hall] at h
          cases h
    | currency =>
      simp only [applyDirectivesAux] at h
      cases hl : df.get_loc k0 with
      | none => rw [hl] at h; cases h
      | some j0 =>
        rw [hl] at h
        intro x hx
        exact applyDirectivesAux_cur_mono rest _ _ _ _ h x
          (List.mem_append_left _ hx)

/-- Every recorded currency position is positive (they are `get_loc + 1`). -/
theorem applyDirectivesAux_cur_pos :
    ∀ (fcs : List (String × Fmt)) (df : DataFrame) (cur : List Nat)
      (df2 : DataFrame) (cur2 : List Nat),
      applyDirectivesAux df cur fcs = Except.ok (df2, cur2) →
      (∀ x ∈ cur, 0 < x) → ∀ x ∈ cur2, 0 < x
  | [], df, cur, df2, cur2, h, hcur => by
    simp only [applyDirectivesAux] at h
    cases h
    exact hcur
  | (k0, f0) :: rest, df, cur, df2, cur2, h, hcur => by
    cases f0 with
    | date =>
      simp only [applyDirectivesAux] at h
      cases hg : df.getCol k0 with
      | none => rw [hg] at h; cases h
      | some vs0 =>
        rw [hg] at h
        dsimp only at h
        by_cases hall : vs0.all isDatelike
        · rw [if_pos hall] at h
          exact applyDirectivesAux_cur_pos rest _ _ _ _ h hcur
        · rw [if_neg hall] at h
          cases h
    | currency =>
      simp only [applyDirectivesAux] at h
      cases hl : df.get_loc k0 with
      | none => rw [hl] at h; cases h
      | some j0 =>
        rw [hl] at h
        refine applyDirectivesAux_cur_pos rest _ _ _ _ h ?_
        intro x hx
        rcases List.mem_append.mp hx with hx | hx
        · exact hcur x hx
        · rw [List.mem_singleton.mp hx]
          exact Nat.succ_pos j0

/-- A `currency` directive's 1-based column position is recorded. -/
theorem applyDirectivesAux_currency :
    ∀ (fcs : List (String × Fmt)) (df : DataFrame) (cur : List Nat)
      (df2 : DataFrame) (cur2 : List Nat) (k : String) (j : Nat),
      applyDirectivesAux df cur fcs = Except.ok (df2, cur2) →
      (k, Fmt.currency) ∈ fcs →
      df.get_loc k = Option.some j →
      (j + 1) ∈ cur2
  | [], df, cur, df2, cur2, k, j, h, hmem, hloc => by simp at hmem
  | (k0, f0) :: rest, df, cur, df2, cur2, k, j, h, hmem, hloc => by
    rcases List.mem_cons.mp hmem with hhead | htail
    · cases hhead
      simp only [applyDirectivesAux] at h
      rw [hloc] at h
      exact applyDirectivesAux_cur_mono rest _ _ _ _ h (j + 1)
        (List.mem_append_right _ (List.mem_singleton.mpr rfl))
    · cases f0 with
      | date =>
        simp only [applyDirectivesAux] at h
        cases hg : df.getCol k0 with
        | none => rw [hg] at h; cases h
        | some vs0 =>
          rw [hg] at h
          dsimp only at h
          by_cases hall : vs0.all isDatelike
          · rw [if_pos hall] at h
            exact applyDirectivesAux_currency rest _ _ _ _ k j h htail
              (by rw [get_loc_setCol]; exact hloc)
          · rw [if_neg hall] at h
            cases h
      | currency =>
        simp only [applyDirectivesAux] at h
        cases hl : df.get_loc k0 with
        | none => rw [hl] at h; cases h
        | some j0 =>
          rw [hl] at h
          exact applyDirectivesAux_currency rest _ _ _ _ k j h htail hloc

/-- The loop raises `KeyError` exactly when some directive key names no
column, provided (directive keys unique, as Python keyword arguments are)
every existing column a `date` directive names is datetime-valued — a
non-datetime one would make `.dt` raise `AttributeError` first. -/
theorem applyDirectivesAux_keyError :
    ∀ (fcs : List (String × Fmt)) (df : DataFrame) (cur : List Nat),
      (fcs.map Prod.fst).Nodup →
      (∀ kv ∈ fcs, kv.2 = Fmt.date → ((df.getCol kv.1).getD []).all isDatelike = true) →
      (applyDirectivesAux df cur fcs = Except.error PyError.keyError ↔
        ∃ kv ∈ fcs, kv.1 ∉ df.names)
  | [], df, cur, _, _ => by
    simp only [applyDirectivesAux]
    constructor
    · intro h
      cases h
    · intro h
      simp at h
  | (k0, f0) :: rest, df, cur, hkeys, hdt => by
    rw [List.map_cons, List.nodup_cons] at hkeys
    cases f0 with
    | date =>
      simp only [applyDirectivesAux]
      cases hg : df.getCol k0 with
      | none =>
        have hk0 : k0 ∉ df.names := (getCol_eq_none_iff df k0).mp hg
        constructor
        · intro _
          exact ⟨(k0, Fmt.date), List.mem_cons_self _ _, hk0⟩
        · intro _
          rfl
      | some vs0 =>
        have hall : vs0.all isDatelike = true := by
          have hh := hdt (k0, Fmt.date) (List.mem_cons_self _ _) rfl
          rw [DataFrame.getCol] at hh
          rw [DataFrame.getCol] at hg
          rw [hg] at hh
          exact hh
        dsimp only
        rw [if_pos hall]
        have hk0in : k0 ∈ df.names := by
          by_contra hc
          rw [← getCol_eq_none_iff df k0] at hc
          rw [hc] at hg
          cases hg
        have hdt2 : ∀ kv ∈ rest, kv.2 = Fmt.date →
            (((df.setCol k0 (vs0.map strfValue)).getCol kv.1).getD []).all isDatelike = true := by
          intro kv hkv hd
          have hne : kv.1 ≠ k0 := by
            intro he
            exact hkeys.1 (he ▸ List.mem_map.mpr ⟨kv, hkv, rfl⟩)
          rw [getCol_setCol_ne df k0 kv.1 _ hne]
          exact hdt kv (List.mem_cons_of_mem _ hkv) hd
        rw [applyDirectivesAux_keyError rest _ cur hkeys.2 hdt2]
        constructor
        · intro ⟨kv, hkv, hnot⟩
          refine ⟨kv, List.mem_cons_of_mem _ hkv, ?_⟩
          rw [setCol_names] at hnot
          exact hnot
        · intro ⟨kv, hkv, hnot⟩
          rcases List.mem_cons.mp hkv with hh | ht
          · rw [hh] at hnot
            exact absurd hk0in hnot
          · exact ⟨kv, ht, by rw [setCol_names]; exact hnot⟩
    | currency =>
      simp only [applyDirectivesAux]
      cases hl : df.get_loc k0 with
      | none =>
        have hk0 : k0 ∉ df.names := (get_loc_eq_none_iff df k0).mp hl
        constructor
        · intro _
          exact ⟨(k0, Fmt.currency), List.mem_cons_self _ _, hk0⟩
        · intro _
          rfl
      | some j0 =>
        have hk0in : k0 ∈ df.names := by
          by_contra hc
          rw [← get_loc_eq_none_iff df k0] at hc
          rw [hc] at hl
          cases hl
        have hdt2 : ∀ kv ∈ rest, kv.2 = Fmt.date →
            ((df.getCol kv.1).getD []).all isDatelike = true :=
          fun kv hkv hd => hdt kv (List.mem_cons_of_mem _ hkv) hd
        rw [applyDirectivesAux_keyError rest _ (cur ++ [j0 + 1]) hkeys.2 hdt2]
        constructor
        · intro ⟨kv, hkv, hnot⟩
          exact ⟨kv, List.mem_cons_of_mem _ hkv, hnot⟩
        · intro ⟨kv, hkv, hnot⟩
          rcases List.mem_cons.mp hkv with hh | ht
          · rw [hh] at hnot
            exact absurd hk0in hnot
          · exact ⟨kv, ht, hnot⟩

theorem highlightCell_value (c : Cell) : (highlightCell c).value = c.value := rfl

theorem highlightCell_idem (c : Cell) : highlightCell (highlightCell c) = highlightCell c := rfl

/-- On success, the row loop rewrites each data row by `highlightRowIfTotal`. -/
theorem highlightStep_ok : ∀ (data data2 : List (List Cell)),
    highlightStep data = Except.ok data2 → data2 = data.map highlightRowIfTotal
  | [], data2, h => by
    simp only [highlightStep] at h
    cases h
    rfl
  | row :: rest, data2, h => by
    cases row with
    | nil => simp [highlightStep] at h
    | cons c t =>
      cases hv : c.value with
      | str s =>
        simp only [highlightStep, List.head?_cons, hv] at h
        cases hrest : highlightStep rest with
        | error e => rw [hrest] at h; cases h
        | ok rest2 =>
          rw [hrest] at h
          cases h
          simp [highlightRowIfTotal, hv, highlightStep_ok rest rest2 hrest]
      | num n => simp [highlightStep, hv] at h
      | date y m d => simp [highlightStep, hv] at h
      | none => simp [highlightStep, hv] at h

/-- A successfully highlighted row list passes through the loop unchanged. -/
theorem highlightStep_stable : ∀ (data data2 : List (List Cell)),
    highlightStep data = Except.ok data2 → highlightStep data2 = Except.ok data2
  | [], data2, h => by
    simp only [highlightStep] at h
    cases h
    rfl
  | row :: rest, data2, h => by
    cases row with
    | nil => simp [highlightStep] at h
    | cons c t =>
      cases hv : c.value with
      | str s =>
        simp only [highlightStep, List.head?_cons, hv] at h
        cases hrest : highlightStep rest with
        | error e => rw [hrest] at h; cases h
        | ok rest2 =>
          rw [hrest] at h
          cases h
          have ih := highlightStep_stable rest rest2 hrest
          by_cases hct : containsTotal s
          · simp only [hct, if_true, highlightStep, List.map_cons, List.head?_cons,
              highlightCell_value, hv, ih]
            simp [List.map_map, Function.comp_def, highlightCell_idem, hct]
          · simp [highlightStep, hv, ih, hct]
      | num n => simp [highlightStep, hv] at h
      | date y m d => simp [highlightStep, hv] at h
      | none => simp [highlightStep, hv] at h

/-- A data row whose first cell is not a string makes the loop raise
`TypeError`. -/
theorem highlightStep_typeError : ∀ data : List (List Cell),
    (∀ row ∈ data, row ≠ []) →
    (∃ row ∈ data, row.head?.map (fun c => c.value.isStr) = Option.some false) →
    highlightStep data = Except.error PyError.typeError
  | [], _, hbad => by simp at hbad
  | row :: rest, hne, hbad => by
    cases row with
    | nil => exact absurd rfl (hne [] (by simp))
    | cons c t =>
      cases hv : c.value with
      | str s =>
        have hrest : ∃ r ∈ rest, r.head?.map (fun c => c.value.isStr) = Option.some false := by
          obtain ⟨r0, hr0m, hr0⟩ := hbad
          rcases List.mem_cons.mp hr0m with h0 | h0
          · subst h0
            simp [hv, Value.isStr] at hr0
          · exact ⟨r0, h0, hr0⟩
        have ih := highlightStep_typeError rest
          (fun r hr => hne r (List.mem_cons_of_mem _ hr)) hrest
        simp [highlightStep, hv, ih]
      | num n => simp [highlightStep, hv]
      | date y m d => simp [highlightStep, hv]
      | none => simp [highlightStep, hv]

/-! ## Claim theorems about `format_totals` -/

/-- **C1.** On every worksheet on which `format_totals` succeeds (success
requires every data row's first cell to hold text, claim C9), the header
row and all non-row style state are untouched, and every data row is
rewritten by `highlightRowIfTotal`: a row whose first-column text contains
the substring `"Total"` (case-sensitively, anywhere in the text) has every
cell given the bold font and the solid `b7aea5` fill, and a row whose
first-column text does not contain that substring is left exactly as it
was. -/
theorem format_totals_marks_total_rows (ws ws' : Worksheet)
    (h : format_totals ws = Except.ok ws') :
    ws'.title = ws.title ∧ ws'.widths = ws.widths ∧ ws'.tables = ws.tables ∧
    ws'.rows.head? = ws.rows.head? ∧
    ws'.rows.tail = ws.rows.tail.map highlightRowIfTotal := by
  obtain ⟨t, rows, w, tb⟩ := ws
  cases rows with
  | nil =>
    simp only [format_totals] at h
    cases h
    simp
  | cons hd data =>
    simp only [format_totals] at h
    cases hstep : highlightStep data with
    | error e => rw [hstep] at h; cases h
    | ok data2 =>
      rw [hstep] at h
      cases h
      simpa using highlightStep_ok data data2 hstep

theorem format_totals_marks_total_rows_witness :
    wsHighlighted.title = wsHighlight.title ∧
    wsHighlighted.widths = wsHighlight.widths ∧
    wsHighlighted.tables = wsHighlight.tables ∧
    wsHighlighted.rows.head? = wsHighlight.rows.head? ∧
    wsHighlighted.rows.tail = wsHighlight.rows.tail.map highlightRowIfTotal :=
  format_totals_marks_total_rows wsHighlight wsHighlighted rfl

/-- **C8.** `format_totals` is idempotent: if it succeeds, running it again
on the result reproduces the result exactly — same fonts, same fills, same
everything. -/
theorem format_totals_idempotent (ws ws' : Worksheet)
    (h : format_totals ws = Except.ok ws') :
    format_totals ws' = Except.ok ws' := by
  obtain ⟨t, rows, w, tb⟩ := ws
  cases rows with
  | nil =>
    simp only [format_totals] at h
    cases h
    simp [format_totals]
  | cons hd data =>
    simp only [format_totals] at h
    cases hstep : highlightStep data with
    | error e => rw [hstep] at h; cases h
    | ok data2 =>
      rw [hstep] at h
      cases h
      simp [format_totals, highlightStep_stable data data2 hstep]

theorem format_totals_idempotent_witness :
    format_totals wsHighlighted = Except.ok wsHighlighted :=
  format_totals_idempotent wsHighlight wsHighlighted rfl

/-- **C9.** If some data row's first-column cell holds a non-string value
(a number, a date, or an empty cell) — assuming the worksheet's rows are
nonempty, as every worksheet written by `create_workbook` with at least one
column has — then `format_totals` fails with `TypeError`: the substring
test `"Total" in cell_value` is applied to the raw value with no
coercion. -/
theorem format_totals_typeError (ws : Worksheet)
    (hne : ∀ row ∈ ws.rows.tail, row ≠ [])
    (hbad : ∃ row ∈ ws.rows.tail,
      row.head?.map (fun c => c.value.isStr) = Option.some false) :
    format_totals ws = Except.error PyError.typeError := by
  obtain ⟨t, rows, w, tb⟩ := ws
  cases rows with
  | nil => simp at hbad
  | cons hd data =>
    simp only [List.tail_cons] at hne hbad
    simp [format_totals, highlightStep_typeError data hne hbad]

theorem format_totals_typeError_witness :
    format_totals wsNumericFirst = Except.error PyError.typeError :=
  format_totals_typeError wsNumericFirst (by decide) (by decide)

/-! ## Claim theorem about the save loop -/

/-- **C7.** The save-retry loop: a successful save prints `"File saved"`
and stops; a locked save prompts, and input `"y"` retries the save while any
other input stops without saving and prints `"File not saved"`; and whenever
the loop stops, it stops through exactly one of those two outcomes. -/
theorem save_loop_spec :
    (∀ (att : Nat → Bool) (inp : Nat → String) (fuel a i : Nat), att a = true →
      saveLoop att inp (fuel + 1) a i = Option.some (true, "File saved")) ∧
    (∀ (att : Nat → Bool) (inp : Nat → String) (fuel a i : Nat),
      att a = false → inp i = "y" →
      saveLoop att inp (fuel + 1) a i = saveLoop att inp fuel (a + 1) (i + 1)) ∧
    (∀ (att : Nat → Bool) (inp : Nat → String) (fuel a i : Nat),
      att a = false → inp i ≠ "y" →
      saveLoop att inp (fuel + 1) a i = Option.some (false, "File not saved")) ∧
    (∀ (att : Nat → Bool) (inp : Nat → String) (fuel a i : Nat) (r : Bool × String),
      saveLoop att inp fuel a i = Option.some r →
      r = (true, "File saved") ∨ r = (false, "File not saved")) := by
  refine ⟨?_, ?_, ?_, ?_⟩
  · intro att inp fuel a i h
    simp [saveLoop, h]
  · intro att inp fuel a i h hy
    simp [saveLoop, h, hy]
  · intro att inp fuel a i h hy
    simp [saveLoop, h, hy]
  · intro att inp fuel
    induction fuel with
    | zero =>
      intro a i r h
      simp [saveLoop] at h
    | succ n ih =>
      intro a i r h
      by_cases ha : att a
      · simp [saveLoop, ha] at h
        left
        exact h.symm
      · by_cases hy : inp i = "y"
        · simp only [saveLoop, ha, if_false, hy, if_true, Bool.false_eq_true] at h
          exact ih (a + 1) (i + 1) r h
        · simp [saveLoop, ha, hy] at h
          right
          exact h.symm

theorem save_loop_spec_witness :
    saveLoop attLocked inpAbort 1 0 0 = Option.some (false, "File not saved") :=
  save_loop_spec.2.2.1 attLocked inpAbort 0 0 0 rfl (by decide)

/-! ## Lemmas about the worksheet passes -/

theorem setCurrency_value (c : Cell) : (setCurrency c).value = c.value := rfl

theorem setCurrency_idem (c : Cell) : setCurrency (setCurrency c) = setCurrency c := rfl

theorem rowValues_modifyAt (r : List Cell) (n : Nat) :
    rowValues (modifyAt setCurrency n r) = rowValues r :=
  modifyAt_map Cell.value setCurrency (fun _ => rfl) n r

/-- The currency-format pass never changes any cell value. -/
theorem foldl_formatColumn_rowValues :
    ∀ (cur : List Nat) (rows : List (List Cell)),
      (cur.foldl formatColumn rows).map rowValues = rows.map rowValues
  | [], rows => rfl
  | i :: cur, rows => by
    rw [List.foldl_cons, foldl_formatColumn_rowValues cur]
    unfold formatColumn
    rw [List.map_map]
    apply List.map_congr_left
    intro r _
    exact rowValues_modifyAt r (i - 1)

/-- Column `j` of the rows, observed through `g`. -/
def colMap {β : Type} (g : Cell → β) (rows : List (List Cell)) (j : Nat) : List (Option β) :=
  rows.map (fun r => (r.get? j).map g)

theorem colMap_congr {β : Type} (g g2 : Cell → β) (rows : List (List Cell)) (j : Nat)
    (h : ∀ c, g c = g2 c) : colMap g rows j = colMap g2 rows j := by
  unfold colMap
  apply List.map_congr_left
  intro r _
  cases r.get? j with
  | none => rfl
  | some c => simp [h c]

theorem colMap_formatColumn_ne {β : Type} (g : Cell → β) (rows : List (List Cell)) (i j : Nat)
    (hj : j ≠ i - 1) : colMap g (formatColumn rows i) j = colMap g rows j := by
  unfold colMap formatColumn
  rw [List.map_map]
  apply List.map_congr_left
  intro r _
  simp only [Function.comp_apply]
  rw [modifyAt_get?_ne setCurrency j (i - 1) r hj]

theorem colMap_formatColumn_self {β : Type} (g : Cell → β) (rows : List (List Cell)) (i : Nat) :
    colMap g (formatColumn rows i) (i - 1) =
      colMap (fun c => g (setCurrency c)) rows (i - 1) := by
  unfold colMap formatColumn
  rw [List.map_map]
  apply List.map_congr_left
  intro r _
  simp only [Function.comp_apply]
  rw [modifyAt_get?_self]
  cases r.get? (i - 1) <;> rfl

theorem colMap_foldl_not_mem {β : Type} (g : Cell → β) :
    ∀ (cur : List Nat) (rows : List (List Cell)) (j : Nat),
      (j + 1) ∉ cur → (∀ x ∈ cur, 0 < x) →
      colMap g (cur.foldl formatColumn rows) j = colMap g rows j
  | [], rows, j, _, _ => rfl
  | i :: cur, rows, j, hnm, hpos => by
    have hne : j ≠ i - 1 := by
      intro he
      have hi : 0 < i := hpos i (List.mem_cons_self _ _)
      have : i = j + 1 := by omega
      exact hnm (this ▸ List.mem_cons_self _ _)
    rw [List.foldl_cons,
      colMap_foldl_not_mem g cur _ j (fun hm => hnm (List.mem_cons_of_mem _ hm))
        (fun x hx => hpos x (List.mem_cons_of_mem _ hx)),
      colMap_formatColumn_ne g rows i j hne]

/-- After the currency pass, a recorded column reads through `g ∘
setCurrency`: every cell of it carries the currency format. -/
theorem colMap_foldl_mem {β : Type} (g : Cell → β) :
    ∀ (cur : List Nat) (rows : List (List Cell)) (j : Nat),
      (j + 1) ∈ cur → (∀ x ∈ cur, 0 < x) →
      colMap g (cur.foldl formatColumn rows) j = colMap (fun c => g (setCurrency c)) rows j
  | [], rows, j, hm, _ => by simp at hm
  | i :: cur, rows, j, hm, hpos => by
    have hpos2 : ∀ x ∈ cur, 0 < x := fun x hx => hpos x (List.mem_cons_of_mem _ hx)
    rw [List.foldl_cons]
    by_cases hi : i = j + 1
    · subst hi
      have hself := colMap_formatColumn_self g rows (j + 1)
      by_cases hm2 : (j + 1) ∈ cur
      · rw [colMap_foldl_mem g cur _ j hm2 hpos2]
        have h1 := colMap_formatColumn_self (fun c => g (setCurrency c)) rows (j + 1)
        simp only [Nat.add_sub_cancel] at h1
        rw [h1]
        exact colMap_congr _ _ rows j (fun c => by rw [setCurrency_idem])
      · rw [colMap_foldl_not_mem g cur _ j hm2 hpos2]
        simpa using hself
    · have hmem : (j + 1) ∈ cur := by
        rcases List.mem_cons.mp hm with hh | hh
        · exact absurd hh.symm hi
        · exact hh
      have hne : j ≠ i - 1 := by
        intro he
        have : 0 < i := hpos i (List.mem_cons_self _ _)
        exact hi (by omega)
      rw [colMap_foldl_mem g cur _ j hmem hpos2,
        colMap_formatColumn_ne (fun c => g (setCurrency c)) rows i j hne]

/-- Column `j` of the freshly written rows, observed through `g`. -/
theorem colMap_written {β : Type} (g : Cell → β) (df : DataFrame) (j : Nat)
    (k : String) (vs : List Value) (hcol : df.cols.get? j = Option.some (k, vs)) :
    colMap g (df.headerRow :: (List.range df.nrows).map df.dataRow) j =
      Option.some (g (mkCell (Value.str k))) ::
        (List.range df.nrows).map (fun i => Option.some (g (mkCell (vs.getD i Value.none)))) := by
  unfold colMap
  rw [List.map_cons]
  congr 1
  · unfold DataFrame.headerRow
    rw [List.get?_map, hcol]
    rfl
  · rw [List.map_map]
    apply List.map_congr_left
    intro i _
    simp only [Function.comp_apply]
    unfold DataFrame.dataRow
    rw [List.get?_map, hcol]
    rfl

theorem rowValues_headerRow (df : DataFrame) :
    rowValues df.headerRow = df.names.map Value.str := by
  unfold rowValues DataFrame.headerRow DataFrame.names
  rw [List.map_map, List.map_map]
  rfl

/-- A member column's length is the row count. -/
theorem rect_get?_length (df : DataFrame) (j : Nat) (k : String) (vs : List Value)
    (hrect : df.Rect) (hj : df.cols.get? j = Option.some (k, vs)) :
    vs.length = df.nrows :=
  hrect (k, vs) (List.get?_mem hj)

/-- On success the loop preserves the row count (unique names assumed). -/
theorem applyDirectivesAux_nrows (fcs : List (String × Fmt)) (df : DataFrame)
    (cur : List Nat) (df2 : DataFrame) (cur2 : List Nat)
    (h : applyDirectivesAux df cur fcs = Except.ok (df2, cur2))
    (hnd : df.names.Nodup) : df2.nrows = df.nrows := by
  have hnames := applyDirectivesAux_names fcs df cur df2 cur2 h
  cases hc : df.cols with
  | nil =>
    have : df2.names = [] := by
      rw [hnames]
      unfold DataFrame.names
      rw [hc]
      rfl
    have h2 : df2.cols = [] := List.map_eq_nil.mp this
    unfold DataFrame.nrows
    rw [hc, h2]
  | cons c0 cs =>
    obtain ⟨k0, vs0⟩ := c0
    have hget : df.cols.get? 0 = Option.some (k0, vs0) := by rw [hc]; rfl
    obtain ⟨vs2, hget2, hlen⟩ :=
      applyDirectivesAux_shape fcs df cur df2 cur2 h hnd 0 k0 vs0 hget
    cases hc2 : df2.cols with
    | nil => rw [hc2] at hget2; cases hget2
    | cons d0 ds =>
      rw [hc2, List.get?_cons_zero] at hget2
      cases hget2
      unfold DataFrame.nrows
      rw [hc, hc2]
      exact hlen

/-! ## Claim theorems about `create_workbook` -/

/-- **C2 (amended).** After `populate` on an initially empty worksheet, the
first worksheet row holds the dataset's column names rewritten by Python
`str.title()` — the first letter of each word uppercased *and the remaining
letters lowercased* — in the original order, and the same renaming is
applied destructively to the caller's dataset. -/
theorem header_row_title_cased (ws : Worksheet) (df : DataFrame) (fcs : List (String × Fmt))
    (hws : ws.rows = [])
    (hok : exceptOk (create_workbook ws df fcs) = true) :
    (create_workbook ws df fcs).map (fun p => p.1.rows.head?.map rowValues) =
      Except.ok (Option.some (df.names.map (fun n => Value.str (pyTitle n)))) ∧
    (create_workbook ws df fcs).map (fun p => p.2.names) =
      Except.ok (df.names.map pyTitle) := by
  cases happly : applyDirectives df.rename fcs with
  | error e => simp [create_workbook, happly, exceptOk] at hok
  | ok p =>
    obtain ⟨df2, cur⟩ := p
    have hnames : df2.names = df.names.map pyTitle := by
      rw [applyDirectivesAux_names fcs df.rename [] df2 cur happly, rename_names]
    constructor
    · simp only [create_workbook, happly, Except.map, Except.ok.injEq]
      have hrows : (setWidths (applyCurrency (addTable (writeRows ws df2) df2.nrows) cur)).rows =
          cur.foldl formatColumn
            (ws.rows ++ df2.headerRow :: (List.range df2.nrows).map df2.dataRow) := rfl
      rw [hrows, hws, List.nil_append]
      have h1 : ((cur.foldl formatColumn
          (df2.headerRow :: (List.range df2.nrows).map df2.dataRow)).map rowValues).head? =
          ((df2.headerRow :: (List.range df2.nrows).map df2.dataRow).map rowValues).head? := by
        rw [foldl_formatColumn_rowValues]
      rw [List.head?_map] at h1
      rw [h1, List.map_cons, List.head?_cons, rowValues_headerRow, hnames, List.map_map]
      rfl
    · simp [create_workbook, happly, Except.map, hnames]

theorem header_row_title_cased_witness :
    (create_workbook wsEmpty dfLowerName []).map (fun p => p.1.rows.head?.map rowValues) =
      Except.ok (Option.some (dfLowerName.names.map (fun n => Value.str (pyTitle n)))) ∧
    (create_workbook wsEmpty dfLowerName []).map (fun p => p.2.names) =
      Except.ok (dfLowerName.names.map pyTitle) :=
  header_row_title_cased wsEmpty dfLowerName [] rfl rfl

/-- **C2 counterexample.** The claim as stated — "column names with each
word's first letter capitalized" — fails on the column name `"USD"`: its
first letter is already capital, so the claimed transform leaves `"USD"`,
but the code writes `"Usd"`, because `str.title()` also lowercases the
letters after the first. -/
theorem header_row_title_cased_counterexample :
    (create_workbook wsEmpty dfUSD []).map (fun p => p.1.rows.head?.map rowValues) =
      Except.ok (Option.some [Value.str "Usd"]) ∧
    dfUSD.names.map capitalizeWords = ["USD"] ∧
    (Option.some [Value.str "Usd"] : Option (List Value)) ≠
      Option.some [Value.str "USD"] := by
  refine ⟨rfl, rfl, by decide⟩

theorem colValues_eq_colMap (rows : List (List Cell)) (j : Nat) :
    colValues rows j = colMap Cell.value rows j := rfl

theorem colFormats_eq_colMap (rows : List (List Cell)) (j : Nat) :
    colFormats rows j = colMap Cell.number_format rows j := rfl

/-- The values column `j` of the finished worksheet reads off the `j`-th
dataframe column under the header cell. -/
theorem colValues_final (df2 : DataFrame) (cur : List Nat) (j : Nat) (k : String)
    (vs2 : List Value)
    (hpos : ∀ x ∈ cur, 0 < x)
    (hget : df2.cols.get? j = Option.some (k, vs2))
    (hn : df2.nrows = vs2.length) :
    colMap Cell.value
      (cur.foldl formatColumn (df2.headerRow :: (List.range df2.nrows).map df2.dataRow)) j =
      Option.some (Value.str k) :: vs2.map Option.some := by
  have hfold : colMap Cell.value
      (cur.foldl formatColumn (df2.headerRow :: (List.range df2.nrows).map df2.dataRow)) j =
      colMap Cell.value (df2.headerRow :: (List.range df2.nrows).map df2.dataRow) j := by
    by_cases hmem : (j + 1) ∈ cur
    · rw [colMap_foldl_mem Cell.value cur _ j hmem hpos]
      exact colMap_congr _ _ _ j (fun c => rfl)
    · exact colMap_foldl_not_mem Cell.value cur _ j hmem hpos
  rw [hfold, colMap_written Cell.value df2 j k vs2 hget, hn]
  congr 1
  conv_rhs => rw [← range_map_getD Value.none vs2]
  rw [List.map_map]
  rfl

/-- The number-format column `j` of the finished worksheet is the currency
format everywhere (header cell included) when `j + 1` was recorded. -/
theorem colFormats_final (df2 : DataFrame) (cur : List Nat) (j : Nat) (k : String)
    (vs2 : List Value)
    (hpos : ∀ x ∈ cur, 0 < x)
    (hmem : (j + 1) ∈ cur)
    (hget : df2.cols.get? j = Option.some (k, vs2))
    (hn : df2.nrows = vs2.length) :
    colMap Cell.number_format
      (cur.foldl formatColumn (df2.headerRow :: (List.range df2.nrows).map df2.dataRow)) j =
      List.replicate (vs2.length + 1) (Option.some currencyFormat) := by
  rw [colMap_foldl_mem Cell.number_format cur _ j hmem hpos,
    colMap_written (fun c => (setCurrency c).number_format) df2 j k vs2 hget]
  have hconst : (List.range df2.nrows).map
      (fun i => Option.some ((setCurrency (mkCell (vs2.getD i Value.none))).number_format)) =
      List.replicate df2.nrows (Option.some currencyFormat) := by
    have he : (List.range df2.nrows).map
        (fun i => Option.some ((setCurrency (mkCell (vs2.getD i Value.none))).number_format)) =
        (List.range df2.nrows).map (fun _ => Option.some currencyFormat) :=
      List.map_congr_left (fun i _ => rfl)
    rw [he, map_const_replicate, List.length_range]
  rw [hconst, hn, List.replicate_succ]
  rfl

/-- **C3.** For a column named by a `date` directive whose values are all
dates, `populate` rewrites the column in the caller's dataset to the
`strftime("%m/%d/%Y")` strings (zero-padded month and day — the `MM/DD/YYYY`
pattern of the source date), and the written worksheet column holds exactly
those strings under the title-cased header: every written data cell of the
column is text.  `k` is the column's post-rename name, `j` its 0-based
position; pandas-guaranteed uniqueness of column names and of directive
keys is assumed, as is success of `populate`. -/
theorem date_directive_column (ws : Worksheet) (df : DataFrame) (fcs : List (String × Fmt))
    (k : String) (j : Nat) (vs : List Value)
    (hws : ws.rows = [])
    (hrect : df.Rect)
    (hnd : df.rename.names.Nodup)
    (hkeys : (fcs.map Prod.fst).Nodup)
    (hdir : (k, Fmt.date) ∈ fcs)
    (hcol : df.rename.cols.get? j = Option.some (k, vs))
    (hdates : vs.all Value.isDate = true)
    (hok : exceptOk (create_workbook ws df fcs) = true) :
    (create_workbook ws df fcs).map (fun p => p.2.cols.get? j) =
      Except.ok (Option.some (k, vs.map strfValue)) ∧
    (create_workbook ws df fcs).map (fun p => colValues p.1.rows j) =
      Except.ok (Option.some (Value.str k) :: (vs.map strfValue).map Option.some) ∧
    (vs.map strfValue).all Value.isStr = true := by
  cases happly : applyDirectives df.rename fcs with
  | error e => simp [create_workbook, happly, exceptOk] at hok
  | ok p =>
    obtain ⟨df2, cur⟩ := p
    have hdate : df2.cols.get? j = Option.some (k, vs.map strfValue) :=
      applyDirectivesAux_date fcs df.rename [] df2 cur k vs j happly hkeys hnd hdir hcol
    have hpos : ∀ x ∈ cur, 0 < x :=
      applyDirectivesAux_cur_pos fcs df.rename [] df2 cur happly (by simp)
    have hn : df2.nrows = (vs.map strfValue).length := by
      rw [applyDirectivesAux_nrows fcs df.rename [] df2 cur happly hnd, List.length_map,
        rect_get?_length df.rename j k vs (rename_rect df hrect) hcol]
    refine ⟨?_, ?_, ?_⟩
    · simp only [create_workbook, happly, Except.map, Except.ok.injEq]
      exact hdate
    · simp only [create_workbook, happly, Except.map, Except.ok.injEq]
      have hrows : (setWidths (applyCurrency (addTable (writeRows ws df2) df2.nrows) cur)).rows =
          cur.foldl formatColumn
            (ws.rows ++ df2.headerRow :: (List.range df2.nrows).map df2.dataRow) := rfl
      rw [hrows, hws, List.nil_append, colValues_eq_colMap,
        colValues_final df2 cur j k (vs.map strfValue) hpos hdate hn]
    · rw [List.all_eq_true] at hdates ⊢
      intro v hv
      obtain ⟨v0, hv0, hve⟩ := List.mem_map.mp hv
      have := hdates v0 hv0
      cases v0 with
      | date y m d => rw [← hve]; rfl
      | str s => simp [Value.isDate] at this
      | num n => simp [Value.isDate] at this
      | none => simp [Value.isDate] at this

theorem date_directive_column_witness :
    (create_workbook wsEmpty dfDates [("Payment_Date", Fmt.date)]).map
        (fun p => p.2.cols.get? 0) =
      Except.ok (Option.some ("Payment_Date",
        [Value.date 2023 10 13, Value.date 2023 10 14].map strfValue)) ∧
    (create_workbook wsEmpty dfDates [("Payment_Date", Fmt.date)]).map
        (fun p => colValues p.1.rows 0) =
      Except.ok (Option.some (Value.str "Payment_Date") ::
        ([Value.date 2023 10 13, Value.date 2023 10 14].map strfValue).map Option.some) ∧
    ([Value.date 2023 10 13, Value.date 2023 10 14].map strfValue).all Value.isStr = true :=
  date_directive_column wsEmpty dfDates [("Payment_Date", Fmt.date)] "Payment_Date" 0
    [Value.date 2023 10 13, Value.date 2023 10 14]
    rfl (by decide) (by decide) (by decide) (by decide) rfl (by decide) rfl

/-- **C4.** For a column named by a `currency` directive, `populate` sets
the number format of every cell of that worksheet column — all data cells
(and the header cell too, since `ws[letter]` spans the full written range) —
to the fixed pattern `"$"#,##0.00_-`, while the underlying cell values of
the column are exactly the dataset's unaltered values under the title-cased
header.  Assumptions as in C3. -/
theorem currency_directive_column (ws : Worksheet) (df : DataFrame) (fcs : List (String × Fmt))
    (k : String) (j : Nat) (vs : List Value)
    (hws : ws.rows = [])
    (hrect : df.Rect)
    (hnd : df.rename.names.Nodup)
    (hkeys : (fcs.map Prod.fst).Nodup)
    (hdir : (k, Fmt.currency) ∈ fcs)
    (hcol : df.rename.cols.get? j = Option.some (k, vs))
    (hok : exceptOk (create_workbook ws df fcs) = true) :
    (create_workbook ws df fcs).map (fun p => colFormats p.1.rows j) =
      Except.ok (List.replicate (vs.length + 1) (Option.some currencyFormat)) ∧
    (create_workbook ws df fcs).map (fun p => colValues p.1.rows j) =
      Except.ok (Option.some (Value.str k) :: vs.map Option.some) := by
  cases happly : applyDirectives df.rename fcs with
  | error e => simp [create_workbook, happly, exceptOk] at hok
  | ok p =>
    obtain ⟨df2, cur⟩ := p
    have hnodatek : ∀ kv ∈ fcs, kv.2 = Fmt.date → kv.1 ≠ k := by
      intro kv hkv hd he
      have hinj := List.inj_on_of_nodup_map hkeys
      have : kv = (k, Fmt.currency) := hinj hkv hdir he
      rw [this] at hd
      cases hd
    have hfroz : df2.cols.get? j = Option.some (k, vs) :=
      applyDirectivesAux_frozen fcs df.rename [] df2 cur k vs j happly hnodatek hcol
    have hmem : (j + 1) ∈ cur :=
      applyDirectivesAux_currency fcs df.rename [] df2 cur k j happly hdir
        (get_loc_of_get? df.rename k vs j hnd hcol)
    have hpos : ∀ x ∈ cur, 0 < x :=
      applyDirectivesAux_cur_pos fcs df.rename [] df2 cur happly (by simp)
    have hn : df2.nrows = vs.length := by
      rw [applyDirectivesAux_nrows fcs df.rename [] df2 cur happly hnd,
        rect_get?_length df.rename j k vs (rename_rect df hrect) hcol]
    have hrows : (setWidths (applyCurrency (addTable (writeRows ws df2) df2.nrows) cur)).rows =
        cur.foldl formatColumn
          (ws.rows ++ df2.headerRow :: (List.range df2.nrows).map df2.dataRow) := rfl
    constructor
    · simp only [create_workbook, happly, Except.map, Except.ok.injEq]
      rw [hrows, hws, List.nil_append, colFormats_eq_colMap,
        colFormats_final df2 cur j k vs hpos hmem hfroz hn]
    · simp only [create_workbook, happly, Except.map, Except.ok.injEq]
      rw [hrows, hws, List.nil_append, colValues_eq_colMap,
        colValues_final df2 cur j k vs hpos hfroz hn]

theorem currency_directive_column_witness :
    (create_workbook wsEmpty dfAmounts [("Amount", Fmt.currency)]).map
        (fun p => colFormats p.1.rows 0) =
      Except.ok (List.replicate ([Value.num 5000, Value.num (-1200)].length + 1)
        (Option.some currencyFormat)) ∧
    (create_workbook wsEmpty dfAmounts [("Amount", Fmt.currency)]).map
        (fun p => colValues p.1.rows 0) =
      Except.ok (Option.some (Value.str "Amount") ::
        [Value.num 5000, Value.num (-1200)].map Option.some) :=
  currency_directive_column wsEmpty dfAmounts [("Amount", Fmt.currency)] "Amount" 0
    [Value.num 5000, Value.num (-1200)]
    rfl (by decide) (by decide) (by decide) (by decide) rfl rfl

/-- **C5 (the code, evaluated at the failing input).** The claim says a
column's width is `(max rendered length over all its cells + 2) * 1.4`,
skipping only unmeasurable (empty) cells.  The code's guard renders with
`str`, but its assignment calls `len` on the raw value, so `len(cell.value)`
raises for every non-string cell and the bare `except` swallows it: numeric
cells are silently excluded from the maximum.  For the dataset with column
`"No" = [123456]`, the code computes width `(2 + 2) * 1.4 = 5.6` from the
header alone, while the claim's formula gives `(6 + 2) * 1.4 = 11.2` because
the numeric cell renders as `"123456"`. -/
theorem column_width_skips_numeric_cells :
    (create_workbook wsEmpty dfWidthBug []).map (fun p => p.1.widths) =
      Except.ok [((2 + 2 : Nat) : ℚ) * (7 / 5)] ∧
    ((2 + 2 : Nat) : ℚ) * (7 / 5) = (28 : ℚ) / 5 ∧
    (create_workbook wsEmpty dfWidthBug []).map (fun p => claimWidth p.1.rows 0) =
      Except.ok (((6 + 2 : Nat) : ℚ) * (7 / 5)) ∧
    ((6 + 2 : Nat) : ℚ) * (7 / 5) = (56 : ℚ) / 5 ∧
    ((28 : ℚ) / 5) ≠ ((56 : ℚ) / 5) := by
  refine ⟨rfl, by norm_num, rfl, by norm_num, by norm_num⟩

/-- **C6 (amended).** `populate` fails with a `KeyError` (a
`LookupError`-class condition, propagating uncaught) **iff** some directive
key names no column of the renamed dataset — provided every existing column
a `date` directive names holds date/time values; a `date` directive on an
existing non-datetime column raises `AttributeError` (not a `LookupError`)
and can pre-empt a later directive's missing key.  Directive keys are
unique, as Python keyword arguments are. -/
theorem lookup_error_iff_missing_column (ws : Worksheet) (df : DataFrame)
    (fcs : List (String × Fmt))
    (hkeys : (fcs.map Prod.fst).Nodup)
    (hdt : ∀ kv ∈ fcs, kv.2 = Fmt.date →
      ((df.rename.getCol kv.1).getD []).all isDatelike = true) :
    (create_workbook ws df fcs = Except.error PyError.keyError ↔
      ∃ kv ∈ fcs, kv.1 ∉ df.rename.names) := by
  have hiff := applyDirectivesAux_keyError fcs df.rename [] hkeys hdt
  constructor
  · intro h
    apply hiff.mp
    cases happly : applyDirectives df.rename fcs with
    | error e =>
      simp only [create_workbook, happly] at h
      injection h with he
      rw [he] at happly
      exact happly
    | ok p =>
      obtain ⟨df2, cur⟩ := p
      simp only [create_workbook, happly] at h
      cases h
  · intro h
    have hkey : applyDirectives df.rename fcs = Except.error PyError.keyError := hiff.mpr h
    simp only [create_workbook, hkey]

theorem lookup_error_iff_missing_column_witness :
    create_workbook wsEmpty dfAmountOnly fcsMissing = Except.error PyError.keyError :=
  (lookup_error_iff_missing_column wsEmpty dfAmountOnly fcsMissing
    (by decide) (by decide)).mpr (by decide)

/-- **C6 counterexample.** The claim's "if and only if" fails as stated:
with dataset column `"A"` holding the string `"x"` and directives
`{A: date, B: currency}`, the key `"B"` names a column that does not exist,
yet `populate` does **not** fail with a `LookupError`-class condition — the
`date` directive on the non-datetime column `"A"` raises `AttributeError`
first. -/
theorem lookup_error_iff_missing_column_counterexample :
    create_workbook wsEmpty dfTextCol fcsMixed = Except.error PyError.attributeError ∧
    create_workbook wsEmpty dfTextCol fcsMixed ≠ Except.error PyError.keyError ∧
    ("B", Fmt.currency) ∈ fcsMixed ∧ "B" ∉ dfTextCol.rename.names := by
  refine ⟨rfl, by decide, by decide, by decide⟩

/-- **C10.** The title-case rename happens before directive keys are
resolved, so a directive key equal to a column's original name but not to
its title-cased form fails with `KeyError`, even though it named an
existing column at call time. -/
theorem directive_key_resolved_after_rename (ws : Worksheet) (df : DataFrame)
    (k : String) (fmt : Fmt)
    (hmem : k ∈ df.names)
    (hnot : k ∉ df.rename.names) :
    create_workbook ws df [(k, fmt)] = Except.error PyError.keyError := by
  have happ : applyDirectives df.rename [(k, fmt)] = Except.error PyError.keyError := by
    cases fmt with
    | date =>
      simp only [applyDirectives, applyDirectivesAux]
      rw [(getCol_eq_none_iff df.rename k).mpr hnot]
    | currency =>
      simp only [applyDirectives, applyDirectivesAux]
      rw [(get_loc_eq_none_iff df.rename k).mpr hnot]
  simp only [create_workbook, happ]

theorem directive_key_resolved_after_rename_witness :
    create_workbook wsEmpty dfAllLower [("amount", Fmt.currency)] =
      Except.error PyError.keyError :=
  directive_key_resolved_after_rename wsEmpty dfAllLower "amount" Fmt.currency
    (by decide) (by decide)

end ExcelWriter
